import Mathlib

/-!
Shallow embedding of `src/gain.rs` from the rtk repository: the command-name
canonicalizer `normalize_cmd_name`, the weighted re-aggregator
`normalize_by_command`, the report driver `run`, the JSON/CSV exporters and
the ASCII graph renderer, together with an abstract model of the external
tracking store. Rust `f64` fields are embedded as `Rat`; `usize`/`u64` as
`Nat` (no arithmetic here can overflow a 64-bit value on the inputs the
claims exercise, and no wrapping arithmetic occurs in the source).
-/

/-- Rust `str::starts_with`, embedded on the character sequence. -/
def strStartsWith (s p : String) : Bool := p.data.isPrefixOf s.data

/-- Embeds `normalize_cmd_name` (gain.rs:281-294). In the `rtk read` branch
the source calls `replacen("rtk read", "rtk cat", 1)`; under the branch guard
the first occurrence of the substring `"rtk read"` is the 8-character prefix,
so the call rewrites that prefix and keeps the suffix unchanged. -/
def normalize_cmd_name (cmd : String) : String :=
  if cmd = "rtk run-err" then "rtk err"
  else if cmd = "rtk run-test" then "rtk test"
  else if cmd = "rtk read" ∨ strStartsWith cmd "rtk read " = true then
    String.mk ("rtk cat".data ++ cmd.data.drop 8)
  else cmd

/-- One row of `Summary.by_command`, the Rust tuple
`(String, usize, usize, f64, u64)` of gain.rs. -/
structure CommandRow where
  cmd : String
  count : Nat
  saved : Nat
  avg_savings_pct : Rat
  avg_time_ms : Nat
deriving DecidableEq, Repr

/-- Accumulator of `normalize_by_command`: canonical label together with
`(total_count, total_saved, weighted_pct_sum, weighted_time_sum)`.
The Rust code keeps a `Vec<String>` of first-seen keys next to a `HashMap`;
since the output iterates the key vector and each key is inserted exactly
once, the pair is equivalent to this association list in first-seen order. -/
abbrev AggAcc := List (String × Nat × Nat × Rat × Rat)

/-- Fold one input row into the accumulator: a fresh canonical key is pushed
at the end (first-seen order); an existing key has the row's contributions
added, exactly as the `entry.or_insert_with` block of gain.rs:313-320. -/
def updateAcc (acc : AggAcc) (key : String) (count saved : Nat) (pct : Rat)
    (time : Nat) : AggAcc :=
  match acc with
  | [] => [(key, count, saved, pct * (count : Rat), (time : Rat) * (count : Rat))]
  | (k, c, s, wp, wt) :: rest =>
    if k = key then
      (k, c + count, s + saved, wp + pct * (count : Rat),
        wt + (time : Rat) * (count : Rat)) :: rest
    else
      (k, c, s, wp, wt) :: updateAcc rest key count saved pct time

/-- Emit one output row from an accumulator entry (gain.rs:325-333): the
percent average is `weighted_pct_sum / count` (0 when the count is 0) and the
time average is the `f64`-to-`u64` cast of `weighted_time_sum / count`, which
truncates toward zero (floor on the nonnegative values arising here). -/
def finishRow (e : String × Nat × Nat × Rat × Rat) : CommandRow :=
  { cmd := e.1
    count := e.2.1
    saved := e.2.2.1
    avg_savings_pct := if e.2.1 > 0 then e.2.2.2.1 / (e.2.1 : Rat) else 0
    avg_time_ms := if e.2.1 > 0 then (e.2.2.2.2 / (e.2.1 : Rat)).floor.toNat else 0 }

theorem finishRow_cmd (e : String × Nat × Nat × Rat × Rat) :
    (finishRow e).cmd = e.1 := rfl

theorem finishRow_count (e : String × Nat × Nat × Rat × Rat) :
    (finishRow e).count = e.2.1 := rfl

theorem finishRow_saved (e : String × Nat × Nat × Rat × Rat) :
    (finishRow e).saved = e.2.2.1 := rfl

/-- The body of the accumulation loop of gain.rs:311-321. -/
def stepRow (acc : AggAcc) (r : CommandRow) : AggAcc :=
  updateAcc acc (normalize_cmd_name r.cmd) r.count r.saved r.avg_savings_pct
    r.avg_time_ms

/-- Embeds `normalize_by_command` (gain.rs:301-336). -/
def normalize_by_command (entries : List CommandRow) : List CommandRow :=
  (entries.foldl stepRow []).map finishRow

/-- First-occurrence order with an already-seen starting list `ks`:
generalisation of `firstSeen` used to reason about the fold. -/
def seenFold (ks : List String) (l : List String) : List String :=
  l.foldl (fun a x => if x ∈ a then a else a ++ [x]) ks

/-- Order of first occurrence of each element of a list: the spec-side
formalisation of "first-seen order" from spec §4.2, used to characterise the
re-aggregator's output order. -/
def firstSeen (l : List String) : List String := seenFold [] l

/-- The ordered list of canonical keys held by an accumulator. -/
def accKeys (acc : AggAcc) : List String := acc.map (fun e => e.1)

/-- Sum of the accumulated counts. -/
def accCountSum (acc : AggAcc) : Nat := (acc.map (fun e => e.2.1)).sum

/-- Sum of the accumulated saved-token totals. -/
def accSavedSum (acc : AggAcc) : Nat := (acc.map (fun e => e.2.2.1)).sum

theorem ratFloorNatDiv (a b : Nat) :
    ((a : Rat) / (b : Rat)).floor = (a : Int) / (b : Int) := by
  have h : ((a : Rat) / (b : Rat)).floor = ⌊((a : Int) : ℚ) / ((b : Nat) : ℚ)⌋ := by
    push_cast
    rfl
  rw [h, Rat.floor_intCast_div_natCast]

theorem canon_fixed_cat (l : List Char) :
    normalize_cmd_name (String.mk ("rtk cat".data ++ l)) =
      String.mk ("rtk cat".data ++ l) := by
  have hd : "rtk cat".data = ['r', 't', 'k', ' ', 'c', 'a', 't'] := rfl
  unfold normalize_cmd_name
  rw [if_neg, if_neg, if_neg]
  · rintro (h | h)
    · have := congrArg String.data h
      simp [hd] at this
    · simp [strStartsWith, hd, List.isPrefixOf] at h
  · intro h
    have := congrArg String.data h
    simp [hd] at this
  · intro h
    have := congrArg String.data h
    simp [hd] at this

theorem normalize_cmd_name_idem (cmd : String) :
    normalize_cmd_name (normalize_cmd_name cmd) = normalize_cmd_name cmd := by
  by_cases h1 : cmd = "rtk run-err"
  · rw [h1]; rfl
  · by_cases h2 : cmd = "rtk run-test"
    · rw [h2]; rfl
    · by_cases h3 : cmd = "rtk read" ∨ strStartsWith cmd "rtk read " = true
      · have hc : normalize_cmd_name cmd =
            String.mk ("rtk cat".data ++ cmd.data.drop 8) := by
          unfold normalize_cmd_name
          rw [if_neg h1, if_neg h2, if_pos h3]
        rw [hc, canon_fixed_cat]
      · have hc : normalize_cmd_name cmd = cmd := by
          unfold normalize_cmd_name
          rw [if_neg h1, if_neg h2, if_neg h3]
        rw [hc, hc]

theorem accKeys_updateAcc (acc : AggAcc) (k : String) (c s : Nat) (p : Rat)
    (t : Nat) :
    accKeys (updateAcc acc k c s p t) =
      if k ∈ accKeys acc then accKeys acc else accKeys acc ++ [k] := by
  induction acc with
  | nil => simp [updateAcc, accKeys]
  | cons hd tl ih =>
    obtain ⟨k0, c0, s0, wp0, wt0⟩ := hd
    by_cases hk : k0 = k
    · subst hk
      simp [updateAcc, accKeys]
    · simp only [updateAcc, if_neg hk, accKeys, List.map_cons] at ih ⊢
      rw [ih]
      by_cases hmem : k ∈ tl.map (fun e => e.1)
      · simp [hmem, Ne.symm hk]
      · simp [hmem, Ne.symm hk]

theorem accKeys_foldl (rows : List CommandRow) (acc : AggAcc) :
    accKeys (rows.foldl stepRow acc) =
      seenFold (accKeys acc) (rows.map (fun r => normalize_cmd_name r.cmd)) := by
  induction rows generalizing acc with
  | nil => rfl
  | cons r rows ih =>
    simp only [List.foldl_cons, List.map_cons, seenFold, List.foldl]
    rw [ih]
    simp [seenFold, stepRow, accKeys_updateAcc]

theorem seenFold_mem {x : String} (l : List String) (ks : List String)
    (h : x ∈ seenFold ks l) : x ∈ ks ∨ x ∈ l := by
  induction l generalizing ks with
  | nil => exact Or.inl h
  | cons y ys ih =>
    simp only [seenFold, List.foldl_cons] at h
    by_cases hy : y ∈ ks
    · rw [if_pos hy] at h
      rcases ih ks h with h' | h'
      · exact Or.inl h'
      · exact Or.inr (List.mem_cons_of_mem _ h')
    · rw [if_neg hy] at h
      rcases ih (ks ++ [y]) h with h' | h'
      · rcases List.mem_append.mp h' with h'' | h''
        · exact Or.inl h''
        · simp at h''
          exact Or.inr (h'' ▸ List.mem_cons_self _ _)
      · exact Or.inr (List.mem_cons_of_mem _ h')

theorem seenFold_nodup (l : List String) (ks : List String) (h : ks.Nodup) :
    (seenFold ks l).Nodup := by
  induction l generalizing ks with
  | nil => exact h
  | cons y ys ih =>
    simp only [seenFold, List.foldl_cons]
    by_cases hy : y ∈ ks
    · rw [if_pos hy]
      exact ih ks h
    · rw [if_neg hy]
      refine ih (ks ++ [y]) ?_
      simp [List.nodup_append, h, hy]

theorem seenFold_length (l : List String) (ks : List String) :
    (seenFold ks l).length ≤ ks.length + l.length := by
  induction l generalizing ks with
  | nil => simp [seenFold]
  | cons y ys ih =>
    simp only [seenFold, List.foldl_cons]
    by_cases hy : y ∈ ks
    · rw [if_pos hy]
      calc (seenFold ks ys).length ≤ ks.length + ys.length := ih ks
        _ ≤ ks.length + (y :: ys).length := by simp
    · rw [if_neg hy]
      calc (seenFold (ks ++ [y]) ys).length ≤ (ks ++ [y]).length + ys.length :=
            ih (ks ++ [y])
        _ = ks.length + (y :: ys).length := by simp [List.length_append]; omega

theorem seenFold_of_nodup_disjoint (l : List String) (ks : List String)
    (hl : l.Nodup) (hdisj : ∀ x ∈ l, x ∉ ks) : seenFold ks l = ks ++ l := by
  induction l generalizing ks with
  | nil => simp [seenFold]
  | cons y ys ih =>
    simp only [seenFold, List.foldl_cons]
    have hy : y ∉ ks := hdisj y (List.mem_cons_self _ _)
    rw [if_neg hy]
    have hys : ys.Nodup := (List.nodup_cons.mp hl).2
    have hdisj' : ∀ x ∈ ys, x ∉ ks ++ [y] := by
      intro x hx
      simp only [List.mem_append, List.mem_singleton]
      rintro (h | h)
      · exact hdisj x (List.mem_cons_of_mem _ hx) h
      · exact (List.nodup_cons.mp hl).1 (h ▸ hx)
    have h2 := ih (ks ++ [y]) hys hdisj'
    simp only [seenFold] at h2
    rw [h2, List.append_assoc]
    rfl

/-- Labels of the re-aggregator output are the canonical labels in first-seen
order. -/
theorem reagg_labels (entries : List CommandRow) :
    (normalize_by_command entries).map (fun r => r.cmd) =
      firstSeen (entries.map (fun r => normalize_cmd_name r.cmd)) := by
  have h : (normalize_by_command entries).map (fun r => r.cmd) =
      accKeys (entries.foldl stepRow []) := by
    simp [normalize_by_command, accKeys, finishRow]
  rw [h, accKeys_foldl]
  rfl

theorem accCountSum_updateAcc (acc : AggAcc) (k : String) (c s : Nat) (p : Rat)
    (t : Nat) : accCountSum (updateAcc acc k c s p t) = accCountSum acc + c := by
  induction acc with
  | nil => simp [updateAcc, accCountSum]
  | cons hd tl ih =>
    obtain ⟨k0, c0, s0, wp0, wt0⟩ := hd
    by_cases hk : k0 = k
    · subst hk
      simp [updateAcc, accCountSum]
      omega
    · simp only [updateAcc, if_neg hk, accCountSum, List.map_cons, List.sum_cons] at ih ⊢
      omega

theorem accSavedSum_updateAcc (acc : AggAcc) (k : String) (c s : Nat) (p : Rat)
    (t : Nat) : accSavedSum (updateAcc acc k c s p t) = accSavedSum acc + s := by
  induction acc with
  | nil => simp [updateAcc, accSavedSum]
  | cons hd tl ih =>
    obtain ⟨k0, c0, s0, wp0, wt0⟩ := hd
    by_cases hk : k0 = k
    · subst hk
      simp [updateAcc, accSavedSum]
      omega
    · simp only [updateAcc, if_neg hk, accSavedSum, List.map_cons, List.sum_cons] at ih ⊢
      omega

theorem accCountSum_foldl (rows : List CommandRow) (acc : AggAcc) :
    accCountSum (rows.foldl stepRow acc) =
      accCountSum acc + (rows.map (fun r => r.count)).sum := by
  induction rows generalizing acc with
  | nil => simp
  | cons r rows ih =>
    simp only [List.foldl_cons, List.map_cons, List.sum_cons]
    rw [ih, stepRow, accCountSum_updateAcc]
    omega

theorem accSavedSum_foldl (rows : List CommandRow) (acc : AggAcc) :
    accSavedSum (rows.foldl stepRow acc) =
      accSavedSum acc + (rows.map (fun r => r.saved)).sum := by
  induction rows generalizing acc with
  | nil => simp
  | cons r rows ih =>
    simp only [List.foldl_cons, List.map_cons, List.sum_cons]
    rw [ih, stepRow, accSavedSum_updateAcc]
    omega

/-- Count totals are preserved by the re-aggregator. -/
theorem reagg_count_sum (entries : List CommandRow) :
    ((normalize_by_command entries).map (fun r => r.count)).sum =
      (entries.map (fun r => r.count)).sum := by
  have h : ((normalize_by_command entries).map (fun r => r.count)).sum =
      accCountSum (entries.foldl stepRow []) := by
    simp [normalize_by_command, accCountSum, Function.comp_def, finishRow_count]
  rw [h, accCountSum_foldl]
  simp [accCountSum]

/-- Saved-token totals are preserved by the re-aggregator. -/
theorem reagg_saved_sum (entries : List CommandRow) :
    ((normalize_by_command entries).map (fun r => r.saved)).sum =
      (entries.map (fun r => r.saved)).sum := by
  have h : ((normalize_by_command entries).map (fun r => r.saved)).sum =
      accSavedSum (entries.foldl stepRow []) := by
    simp [normalize_by_command, accSavedSum, Function.comp_def, finishRow_saved]
  rw [h, accSavedSum_foldl]
  simp [accSavedSum]

theorem reagg_labels_nodup (entries : List CommandRow) :
    ((normalize_by_command entries).map (fun r => r.cmd)).Nodup := by
  rw [reagg_labels]
  exact seenFold_nodup _ [] List.nodup_nil

theorem reagg_cmd_fixed (entries : List CommandRow) :
    ∀ r ∈ normalize_by_command entries, normalize_cmd_name r.cmd = r.cmd := by
  intro r hr
  have hmem : r.cmd ∈ (normalize_by_command entries).map (fun r => r.cmd) :=
    List.mem_map_of_mem _ hr
  rw [reagg_labels] at hmem
  rcases seenFold_mem _ [] hmem with h | h
  · simp at h
  · obtain ⟨x, _, hxe⟩ := List.mem_map.mp h
    rw [← hxe, normalize_cmd_name_idem]

theorem reagg_length_le (entries : List CommandRow) :
    (normalize_by_command entries).length ≤ entries.length := by
  have h1 : (normalize_by_command entries).length =
      ((normalize_by_command entries).map (fun r => r.cmd)).length :=
    (List.length_map _ _).symm
  rw [h1, reagg_labels]
  have h2 := seenFold_length (entries.map fun r => normalize_cmd_name r.cmd) []
  simpa [firstSeen] using h2

theorem reagg_idem_labels (entries : List CommandRow) :
    (normalize_by_command (normalize_by_command entries)).map (fun r => r.cmd) =
      (normalize_by_command entries).map (fun r => r.cmd) := by
  rw [reagg_labels]
  have hmapeq : (normalize_by_command entries).map
        (fun r => normalize_cmd_name r.cmd) =
      (normalize_by_command entries).map (fun r => r.cmd) :=
    List.map_congr_left (fun r hr => reagg_cmd_fixed entries r hr)
  rw [hmapeq]
  unfold firstSeen
  rw [seenFold_of_nodup_disjoint _ [] (reagg_labels_nodup entries) (by simp)]
  rfl

theorem reagg_idem_length (entries : List CommandRow) :
    (normalize_by_command (normalize_by_command entries)).length =
      (normalize_by_command entries).length := by
  have h := congrArg List.length (reagg_idem_labels entries)
  simpa using h

/-- C1: on the two input rows `("rtk run-err",10,500,80,100)` and
`("rtk err",5,300,75,50)` the re-aggregator returns exactly one row labelled
`"rtk err"` with count 15, saved 800, the count-weighted percentage
`(80*10+75*5)/15` and the truncated weighted time `(100*10+50*5)/15 = 83`
(truncation toward zero, i.e. Nat division, not rounding). -/
theorem C1_reaggregate_merges_weighted :
    normalize_by_command
        [⟨"rtk run-err", 10, 500, 80, 100⟩, ⟨"rtk err", 5, 300, 75, 50⟩] =
      [⟨"rtk err", 15, 800, (80 * 10 + 75 * 5) / 15, (100 * 10 + 50 * 5) / 15⟩] ∧
    ((80 * 10 + 75 * 5 : Rat) / 15 = 235 / 3) ∧
    ((100 * 10 + 50 * 5 : Nat) / 15 = 83) := by
  refine ⟨?_, by norm_num, by decide⟩
  have h1 : normalize_cmd_name "rtk run-err" = "rtk err" := rfl
  have h2 : normalize_cmd_name "rtk err" = "rtk err" := rfl
  simp [normalize_by_command, stepRow, h1, h2, updateAcc, finishRow,
    CommandRow.mk.injEq]
  have h3 : (100 * 10 + 50 * 5 : Rat) / 15 =
      ((1250 : Nat) : Rat) / ((15 : Nat) : Rat) := by norm_num
  rw [h3, ratFloorNatDiv]
  decide

/-- C2: the re-aggregator's output lists canonical labels in the order in
which each canonical label first appears in the input (never re-sorted); in
particular the three test rows come out as git status, err (rewritten), ls. -/
theorem C2_reaggregate_preserves_first_seen_order :
    (∀ entries : List CommandRow,
      (normalize_by_command entries).map (fun r => r.cmd) =
        firstSeen (entries.map (fun r => normalize_cmd_name r.cmd))) ∧
    (normalize_by_command
          [⟨"rtk git status", 20, 1000, 70, 50⟩,
            ⟨"rtk run-err", 10, 500, 80, 100⟩,
            ⟨"rtk ls", 5, 200, 60, 30⟩]).map (fun r => r.cmd) =
      ["rtk git status", "rtk err", "rtk ls"] := by
  refine ⟨reagg_labels, ?_⟩
  rw [reagg_labels]
  decide

/-- C3: for every non-empty input, the sums of the `count` and `saved` fields
are preserved exactly by the re-aggregator. -/
theorem C3_reaggregate_preserves_sums (entries : List CommandRow)
    (h : entries ≠ []) :
    ((normalize_by_command entries).map (fun r => r.count)).sum =
        (entries.map (fun r => r.count)).sum ∧
      ((normalize_by_command entries).map (fun r => r.saved)).sum =
        (entries.map (fun r => r.saved)).sum :=
  ⟨reagg_count_sum entries, reagg_saved_sum entries⟩

/-- C3 witness: the sum preservation at the concrete one-row input. -/
theorem C3_reaggregate_preserves_sums_witness :
    ((normalize_by_command [⟨"rtk run-err", 10, 500, 80, 100⟩]).map
          (fun r => r.count)).sum =
        ([(⟨"rtk run-err", 10, 500, 80, 100⟩ : CommandRow)].map
          (fun r => r.count)).sum ∧
      ((normalize_by_command [⟨"rtk run-err", 10, 500, 80, 100⟩]).map
          (fun r => r.saved)).sum =
        ([(⟨"rtk run-err", 10, 500, 80, 100⟩ : CommandRow)].map
          (fun r => r.saved)).sum :=
  C3_reaggregate_preserves_sums [⟨"rtk run-err", 10, 500, 80, 100⟩]
    (List.cons_ne_nil _ _)

/-- C4: the canonicalizer is idempotent. -/
theorem C4_canonicalize_idempotent (cmd : String) :
    normalize_cmd_name (normalize_cmd_name cmd) = normalize_cmd_name cmd :=
  normalize_cmd_name_idem cmd

/-- C5: the canonicalizer maps exactly `"rtk run-err"` to `"rtk err"`,
`"rtk run-test"` to `"rtk test"`, rewrites the `"rtk read"` prefix of a label
equal to `"rtk read"` or starting with `"rtk read "` to `"rtk cat"` keeping
the suffix, and returns every other label unchanged. -/
theorem C5_canonicalize_mapping :
    normalize_cmd_name "rtk run-err" = "rtk err" ∧
    normalize_cmd_name "rtk run-test" = "rtk test" ∧
    normalize_cmd_name "rtk read" = "rtk cat" ∧
    normalize_cmd_name "rtk read -" = "rtk cat -" ∧
    normalize_cmd_name "rtk git status" = "rtk git status" ∧
    (∀ cmd : String, cmd = "rtk read" ∨ strStartsWith cmd "rtk read " = true →
      normalize_cmd_name cmd = String.mk ("rtk cat".data ++ cmd.data.drop 8)) ∧
    (∀ cmd : String, cmd ≠ "rtk run-err" → cmd ≠ "rtk run-test" →
      cmd ≠ "rtk read" → strStartsWith cmd "rtk read " = false →
      normalize_cmd_name cmd = cmd) := by
  refine ⟨by decide, by decide, by decide, by decide, by decide, ?_, ?_⟩
  · intro cmd h
    have h1 : cmd ≠ "rtk run-err" := by
      rintro rfl
      rcases h with h | h
      · exact absurd h (by decide)
      · exact absurd h (by decide)
    have h2 : cmd ≠ "rtk run-test" := by
      rintro rfl
      rcases h with h | h
      · exact absurd h (by decide)
      · exact absurd h (by decide)
    unfold normalize_cmd_name
    rw [if_neg h1, if_neg h2, if_pos h]
  · intro cmd h1 h2 h3 h4
    unfold normalize_cmd_name
    rw [if_neg h1, if_neg h2, if_neg]
    rintro (h | h)
    · exact h3 h
    · rw [h4] at h
      exact Bool.false_ne_true h

/-- C5 witness: the unchanged-label rule and the prefix-rewrite rule at
concrete inputs. -/
theorem C5_canonicalize_mapping_witness :
    normalize_cmd_name "rtk cargo test" = "rtk cargo test" ∧
    normalize_cmd_name "rtk read --json" = "rtk cat --json" := by
  constructor
  · exact C5_canonicalize_mapping.2.2.2.2.2.2 "rtk cargo test" (by decide)
      (by decide) (by decide) (by decide)
  · rw [C5_canonicalize_mapping.2.2.2.2.2.1 "rtk read --json"
      (Or.inr (by decide))]
    rfl

/-- C10: the re-aggregator's output has pairwise-distinct labels, each a
fixed point of the canonicalizer; the output is no longer than the input, and
re-running the re-aggregator merges nothing further (same labels in the same
order, same length). -/
theorem C10_reaggregate_canonical_invariants (entries : List CommandRow) :
    ((normalize_by_command entries).map (fun r => r.cmd)).Nodup ∧
    (∀ r ∈ normalize_by_command entries, normalize_cmd_name r.cmd = r.cmd) ∧
    (normalize_by_command entries).length ≤ entries.length ∧
    (normalize_by_command (normalize_by_command entries)).map (fun r => r.cmd) =
      (normalize_by_command entries).map (fun r => r.cmd) ∧
    (normalize_by_command (normalize_by_command entries)).length =
      (normalize_by_command entries).length :=
  ⟨reagg_labels_nodup entries, reagg_cmd_fixed entries, reagg_length_le entries,
    reagg_idem_labels entries, reagg_idem_length entries⟩

/-- C10 witness: the fixed-point part applied to the output row produced from
a concrete input. -/
theorem C10_reaggregate_canonical_invariants_witness :
    normalize_cmd_name (CommandRow.mk "rtk err" 1 20 50 6).cmd =
      (CommandRow.mk "rtk err" 1 20 50 6).cmd := by
  have hout : normalize_by_command [⟨"rtk run-err", 1, 20, 50, 6⟩] =
      [⟨"rtk err", 1, 20, 50, 6⟩] := by
    have h1 : normalize_cmd_name "rtk run-err" = "rtk err" := rfl
    simp [normalize_by_command, stepRow, h1, updateAcc, finishRow,
      CommandRow.mk.injEq]
    decide
  exact (C10_reaggregate_canonical_invariants [⟨"rtk run-err", 1, 20, 50, 6⟩]).2.1
    ⟨"rtk err", 1, 20, 50, 6⟩ (by rw [hout]; exact List.mem_singleton.mpr rfl)

/-- Summary as returned by `Tracker::get_summary` (spec §3; fields as read by
gain.rs). -/
structure Summary where
  total_commands : Nat
  total_input : Nat
  total_output : Nat
  total_saved : Nat
  avg_savings_pct : Rat
  total_time_ms : Nat
  avg_time_ms : Nat
  by_command : List CommandRow
  by_day : List (String × Nat)
deriving DecidableEq, Repr

/-- Modelled from the spec: `RecentRecord` of the tracking store
(crate::tracking, not under src/): timestamp, raw command label, per-command
savings percentage, saved tokens (spec §3). The chrono timestamp is
represented by its rendered `"%m-%d %H:%M"` form. -/
structure RecentRecord where
  timestamp : String
  rtk_cmd : String
  savings_pct : Rat
  saved_tokens : Nat
deriving DecidableEq, Repr

/-- Modelled from the spec: `DayStats` rollup of the tracking store
(crate::tracking, not under src/), with the fields gain.rs reads in
`export_csv` (spec §3). -/
structure DayStats where
  date : String
  commands : Nat
  input_tokens : Nat
  output_tokens : Nat
  saved_tokens : Nat
  savings_pct : Rat
  total_time_ms : Nat
  avg_time_ms : Nat
deriving DecidableEq, Repr

/-- Modelled from the spec: `WeekStats` rollup (crate::tracking, not under
src/), fields as read in `export_csv` (spec §3). -/
structure WeekStats where
  week_start : String
  week_end : String
  commands : Nat
  input_tokens : Nat
  output_tokens : Nat
  saved_tokens : Nat
  savings_pct : Rat
  total_time_ms : Nat
  avg_time_ms : Nat
deriving DecidableEq, Repr

/-- Modelled from the spec: `MonthStats` rollup (crate::tracking, not under
src/), fields as read in `export_csv` (spec §3). -/
structure MonthStats where
  month : String
  commands : Nat
  input_tokens : Nat
  output_tokens : Nat
  saved_tokens : Nat
  savings_pct : Rat
  total_time_ms : Nat
  avg_time_ms : Nat
deriving DecidableEq, Repr

/-- Abstract model of the external tracking store (spec §6): each read-only
query either yields a value or fails with a store-access error message. -/
structure Tracker where
  get_summary : Except String Summary
  get_recent : Nat → Except String (List RecentRecord)
  get_all_days : Except String (List DayStats)
  get_by_week : Except String (List WeekStats)
  get_by_month : Except String (List MonthStats)

/-- Names of the store queries, used to trace which queries a run performs. -/
inductive StoreQuery where
  | getSummary
  | getRecent
  | getAllDays
  | getByWeek
  | getByMonth
deriving DecidableEq, Repr

/-- One observable event of a run: a printed line or a performed store
query. A run returns its event trace on success (on error the propagated
message is the observable). -/
inductive Ev where
  | out (line : String)
  | query (q : StoreQuery)
deriving DecidableEq, Repr

/-- Modelled from the spec: `format_tokens` (crate::utils, not under src/)
renders a token count as a human-readable magnitude string; the exact text is
out of the core's scope (spec §1), so it is modelled as the decimal
numeral. -/
def format_tokens (n : Nat) : String := toString n

/-- Modelled from the spec: `format_duration` (crate::display_helpers, not
under src/) renders a duration human-readably; out of the core's scope
(spec §1), modelled as the millisecond numeral. -/
def format_duration (ms : Nat) : String := toString ms ++ "ms"

/-- Modelled from the spec: Rust `{:.1}` / `{:.0}` / `{:.2}` float
formatting of percentages, out of the core's scope; modelled as the exact
rational rendered by `toString`. -/
def fmtPct (q : Rat) : String := toString q

/-- Label truncation as in gain.rs:68-72 and 100-104: labels longer than
`maxLen` keep the first `keep` characters followed by `"..."`. -/
def truncateLabel (cmd : String) (maxLen keep : Nat) : String :=
  if cmd.length > maxLen then String.mk (cmd.data.take keep) ++ "..." else cmd

/-- Embeds `data.iter().map(v).max().unwrap_or(1)` of gain.rs:167. -/
def maxVal (data : List (String × Nat)) : Nat :=
  match (data.map (fun p => p.2)).max? with
  | some m => m
  | none => 1

/-- Bar length of gain.rs:173-177: `((value as f64 / max_val as f64) *
width as f64) as usize` guarded by `max_val > 0`; the `f64`-to-`usize` cast
truncates (floor on these nonnegative values). The guard is the source's
protection against division by zero. -/
def bar_len (value max_val width : Nat) : Nat :=
  if max_val > 0 then
    (((value : Rat) / (max_val : Rat)) * (width : Rat)).floor.toNat
  else 0

/-- One rendered graph row (gain.rs:170-188): truncated date label, bar,
right padding to the fixed width, formatted value. -/
def graphLine (width max_val : Nat) (p : String × Nat) : String :=
  let date_short :=
    if p.1.length ≥ 10 then String.mk ((p.1.data.drop 5).take 5) else p.1
  let bl := bar_len p.2 max_val width
  date_short ++ " │" ++ String.mk (List.replicate bl '█') ++
    String.mk (List.replicate (width - bl) ' ') ++ " " ++ format_tokens p.2

/-- Embeds `print_ascii_graph` (gain.rs:162-190): an empty series renders
nothing; otherwise one line per row at fixed width 40. -/
def print_ascii_graph (data : List (String × Nat)) : List String :=
  if data.isEmpty then [] else data.map (graphLine 40 (maxVal data))

/-- The 40-dash separator line used by the text report. -/
def sepLine : String := "────────────────────────────────────────"

/-- Header block of the default text view (gain.rs:40-57). The fixed-width
alignment of the external formatters is modelled as plain concatenation; the
textual details are out of the core's scope (spec §1). -/
def headerLines (s : Summary) : List Ev :=
  [Ev.out "📊 RTK Token Savings",
    Ev.out "════════════════════════════════════════",
    Ev.out "",
    Ev.out ("Total commands:    " ++ toString s.total_commands),
    Ev.out ("Input tokens:      " ++ format_tokens s.total_input),
    Ev.out ("Output tokens:     " ++ format_tokens s.total_output),
    Ev.out ("Tokens saved:      " ++ format_tokens s.total_saved ++ " (" ++
      fmtPct s.avg_savings_pct ++ "%)"),
    Ev.out ("Total exec time:   " ++ format_duration s.total_time_ms ++
      " (avg " ++ format_duration s.avg_time_ms ++ ")"),
    Ev.out ""]

/-- One per-command table line (gain.rs:67-81). -/
def cmdRowLine (r : CommandRow) : String :=
  truncateLabel r.cmd 18 15 ++ " " ++ toString r.count ++ " " ++
    format_tokens r.saved ++ " " ++ fmtPct r.avg_savings_pct ++ "% " ++
    format_duration r.avg_time_ms

/-- The per-command table of the default view (gain.rs:59-83), built from
`normalize_by_command`; suppressed when `by_command` is empty. -/
def commandTableLines (s : Summary) : List Ev :=
  if s.by_command.isEmpty then []
  else
    [Ev.out "By Command:", Ev.out sepLine,
      Ev.out "Command Count Saved Avg% Time"] ++
    (normalize_by_command s.by_command).map (fun r => Ev.out (cmdRowLine r)) ++
    [Ev.out ""]

/-- The optional graph section (gain.rs:85-90). -/
def graphSection (graph : Bool) (s : Summary) : List Ev :=
  if graph && !s.by_day.isEmpty then
    [Ev.out "Daily Savings (last 30 days):", Ev.out sepLine] ++
    (print_ascii_graph s.by_day).map Ev.out ++ [Ev.out ""]
  else []

/-- One recent-history line (gain.rs:97-112). -/
def recentLine (rec : RecentRecord) : String :=
  rec.timestamp ++ " " ++ truncateLabel (normalize_cmd_name rec.rtk_cmd) 25 22 ++
    " -" ++ fmtPct rec.savings_pct ++ "% (" ++ format_tokens rec.saved_tokens ++ ")"

/-- The optional recent-history section (gain.rs:92-115): queries
`get_recent(10)` and propagates its error unchanged (`?` with no added
context in the source). -/
def historySection (tracker : Tracker) : Except String (List Ev) :=
  match tracker.get_recent 10 with
  | .error e => .error e
  | .ok recent =>
    .ok ([Ev.query StoreQuery.getRecent] ++
      if recent.isEmpty then []
      else
        [Ev.out "Recent Commands:", Ev.out sepLine] ++
        recent.map (fun rec => Ev.out (recentLine rec)) ++ [Ev.out ""])

/-- Embeds `ESTIMATED_PRO_MONTHLY` of gain.rs:118. -/
def ESTIMATED_PRO_MONTHLY : Nat := 6000000

/-- The optional quota section (gain.rs:117-141): unknown tiers fall back to
the Pro tier. -/
def quotaSection (tier : String) (s : Summary) : List Ev :=
  let qt :=
    if tier = "pro" then (ESTIMATED_PRO_MONTHLY, "Pro ($20/mo)")
    else if tier = "5x" then (ESTIMATED_PRO_MONTHLY * 5, "Max 5x ($100/mo)")
    else if tier = "20x" then (ESTIMATED_PRO_MONTHLY * 20, "Max 20x ($200/mo)")
    else (ESTIMATED_PRO_MONTHLY, "Pro ($20/mo)")
  let quota_pct : Rat := ((s.total_saved : Rat) / (qt.1 : Rat)) * 100
  [Ev.out "Monthly Quota Analysis:", Ev.out sepLine,
    Ev.out ("Subscription tier:        " ++ qt.2),
    Ev.out ("Estimated monthly quota:  " ++ format_tokens qt.1),
    Ev.out ("Tokens saved (lifetime):  " ++ format_tokens s.total_saved),
    Ev.out ("Quota preserved:          " ++ fmtPct quota_pct ++ "%"),
    Ev.out "",
    Ev.out "Note: Heuristic estimate based on ~44K tokens/5h (Pro baseline)",
    Ev.out "      Actual limits use rolling 5-hour windows, not monthly caps."]

/-- Modelled from the spec: `print_period_table`
(crate::display_helpers, not under src/) renders an aligned table of
rollups, one line per rollup (spec §4.4); its text is out of the core's
scope and modelled minimally. -/
def periodTableDays (days : List DayStats) : List String :=
  days.map (fun d => d.date ++ " " ++ toString d.commands ++ " " ++
    format_tokens d.saved_tokens)

/-- Modelled from the spec: weekly variant of `print_period_table`. -/
def periodTableWeeks (weeks : List WeekStats) : List String :=
  weeks.map (fun w => w.week_start ++ " " ++ toString w.commands ++ " " ++
    format_tokens w.saved_tokens)

/-- Modelled from the spec: monthly variant of `print_period_table`. -/
def periodTableMonths (months : List MonthStats) : List String :=
  months.map (fun m => m.month ++ " " ++ toString m.commands ++ " " ++
    format_tokens m.saved_tokens)

/-- Embeds `print_daily_full` (gain.rs:192-196): queries `get_all_days` and
propagates its error unchanged (`?` with no added context). -/
def print_daily_full (tracker : Tracker) : Except String (List Ev) :=
  match tracker.get_all_days with
  | .error e => .error e
  | .ok days =>
    .ok ([Ev.query StoreQuery.getAllDays] ++ (periodTableDays days).map Ev.out)

/-- Embeds `print_weekly` (gain.rs:198-202). -/
def print_weekly (tracker : Tracker) : Except String (List Ev) :=
  match tracker.get_by_week with
  | .error e => .error e
  | .ok weeks =>
    .ok ([Ev.query StoreQuery.getByWeek] ++ (periodTableWeeks weeks).map Ev.out)

/-- Embeds `print_monthly` (gain.rs:204-208). -/
def print_monthly (tracker : Tracker) : Except String (List Ev) :=
  match tracker.get_by_month with
  | .error e => .error e
  | .ok months =>
    .ok ([Ev.query StoreQuery.getByMonth] ++ (periodTableMonths months).map Ev.out)

/-- A JSON value, used to model the serialized export document. -/
inductive Json where
  | null
  | num (q : Rat)
  | str (s : String)
  | arr (xs : List Json)
  | obj (fields : List (String × Json))
deriving Repr

/-- Embeds `ExportSummary` of gain.rs:221-230. -/
structure ExportSummary where
  total_commands : Nat
  total_input : Nat
  total_output : Nat
  total_saved : Nat
  avg_savings_pct : Rat
  total_time_ms : Nat
  avg_time_ms : Nat
deriving DecidableEq, Repr

/-- Embeds `ExportData` of gain.rs:210-219: the three granularity fields are
`Option`s annotated `#[serde(skip_serializing_if = "Option::is_none")]`. -/
structure ExportData where
  summary : ExportSummary
  daily : Option (List DayStats)
  weekly : Option (List WeekStats)
  monthly : Option (List MonthStats)
deriving DecidableEq, Repr

def DayStats.toJson (d : DayStats) : Json :=
  Json.obj [("date", Json.str d.date), ("commands", Json.num d.commands),
    ("input_tokens", Json.num d.input_tokens),
    ("output_tokens", Json.num d.output_tokens),
    ("saved_tokens", Json.num d.saved_tokens),
    ("savings_pct", Json.num d.savings_pct),
    ("total_time_ms", Json.num d.total_time_ms),
    ("avg_time_ms", Json.num d.avg_time_ms)]

def WeekStats.toJson (w : WeekStats) : Json :=
  Json.obj [("week_start", Json.str w.week_start),
    ("week_end", Json.str w.week_end), ("commands", Json.num w.commands),
    ("input_tokens", Json.num w.input_tokens),
    ("output_tokens", Json.num w.output_tokens),
    ("saved_tokens", Json.num w.saved_tokens),
    ("savings_pct", Json.num w.savings_pct),
    ("total_time_ms", Json.num w.total_time_ms),
    ("avg_time_ms", Json.num w.avg_time_ms)]

def MonthStats.toJson (m : MonthStats) : Json :=
  Json.obj [("month", Json.str m.month), ("commands", Json.num m.commands),
    ("input_tokens", Json.num m.input_tokens),
    ("output_tokens", Json.num m.output_tokens),
    ("saved_tokens", Json.num m.saved_tokens),
    ("savings_pct", Json.num m.savings_pct),
    ("total_time_ms", Json.num m.total_time_ms),
    ("avg_time_ms", Json.num m.avg_time_ms)]

def ExportSummary.toJson (s : ExportSummary) : Json :=
  Json.obj [("total_commands", Json.num s.total_commands),
    ("total_input", Json.num s.total_input),
    ("total_output", Json.num s.total_output),
    ("total_saved", Json.num s.total_saved),
    ("avg_savings_pct", Json.num s.avg_savings_pct),
    ("total_time_ms", Json.num s.total_time_ms),
    ("avg_time_ms", Json.num s.avg_time_ms)]

/-- Serde serialization of `ExportData` (gain.rs:210-219, 270): a field
annotated `skip_serializing_if = "Option::is_none"` is omitted from the
object entirely when `None` — it is never emitted as `Json.null`; a `Some`
serializes as the full array of rollups. -/
def ExportData.toJson (e : ExportData) : Json :=
  Json.obj
    ([("summary", e.summary.toJson)] ++
      (match e.daily with
        | some ds => [("daily", Json.arr (ds.map DayStats.toJson))]
        | none => []) ++
      (match e.weekly with
        | some ws => [("weekly", Json.arr (ws.map WeekStats.toJson))]
        | none => []) ++
      (match e.monthly with
        | some ms => [("monthly", Json.arr (ms.map MonthStats.toJson))]
        | none => []))

/-- The keys of a serialized JSON object. -/
def Json.topKeys : Json → List String
  | Json.obj fs => fs.map (fun f => f.1)
  | _ => []

def jsonFieldLookup : List (String × Json) → String → Option Json
  | [], _ => none
  | f :: fs, key => if f.1 = key then some f.2 else jsonFieldLookup fs key

/-- The value stored under a key of a serialized JSON object, if present. -/
def Json.getField (j : Json) (key : String) : Option Json :=
  match j with
  | Json.obj fs => jsonFieldLookup fs key
  | _ => none

/-- Modelled from the spec: `serde_json::to_string_pretty` is an external
serializer; the document structure (which is all the claims constrain) is
captured by `Json`, and the rendered text is modelled by its `Repr` form. -/
def jsonText (j : Json) : String := toString (repr j)

/-- Embeds `export_json` (gain.rs:232-274). The returned pair is the event
trace (queries in program order, then the printed document) together with
the `ExportData` value that is serialized. Queries run in struct-literal
field order: daily, weekly, monthly; only `get_summary` carries an added
context message. -/
def export_json (tracker : Tracker) (daily weekly monthly all : Bool) :
    Except String (List Ev × ExportData) :=
  match tracker.get_summary with
  | .error e =>
    .error ("Failed to load token savings summary from database: " ++ e)
  | .ok summary =>
    let es : ExportSummary :=
      { total_commands := summary.total_commands
        total_input := summary.total_input
        total_output := summary.total_output
        total_saved := summary.total_saved
        avg_savings_pct := summary.avg_savings_pct
        total_time_ms := summary.total_time_ms
        avg_time_ms := summary.avg_time_ms }
    match (if all || daily then
        (tracker.get_all_days).map
          (fun ds => (some ds, [Ev.query StoreQuery.getAllDays]))
      else .ok (none, [])) with
    | .error e => .error e
    | .ok dpart =>
      match (if all || weekly then
          (tracker.get_by_week).map
            (fun ws => (some ws, [Ev.query StoreQuery.getByWeek]))
        else .ok (none, [])) with
      | .error e => .error e
      | .ok wpart =>
        match (if all || monthly then
            (tracker.get_by_month).map
              (fun ms => (some ms, [Ev.query StoreQuery.getByMonth]))
          else .ok (none, [])) with
        | .error e => .error e
        | .ok mpart =>
          let ed : ExportData :=
            { summary := es, daily := dpart.1, weekly := wpart.1,
              monthly := mpart.1 }
          .ok ([Ev.query StoreQuery.getSummary] ++ dpart.2 ++ wpart.2 ++
            mpart.2 ++ [Ev.out (jsonText ed.toJson)], ed)

def csvDayLine (d : DayStats) : String :=
  d.date ++ "," ++ toString d.commands ++ "," ++ toString d.input_tokens ++
    "," ++ toString d.output_tokens ++ "," ++ toString d.saved_tokens ++ "," ++
    fmtPct d.savings_pct ++ "," ++ toString d.total_time_ms ++ "," ++
    toString d.avg_time_ms

def csvWeekLine (w : WeekStats) : String :=
  w.week_start ++ "," ++ w.week_end ++ "," ++ toString w.commands ++ "," ++
    toString w.input_tokens ++ "," ++ toString w.output_tokens ++ "," ++
    toString w.saved_tokens ++ "," ++ fmtPct w.savings_pct ++ "," ++
    toString w.total_time_ms ++ "," ++ toString w.avg_time_ms

def csvMonthLine (m : MonthStats) : String :=
  m.month ++ "," ++ toString m.commands ++ "," ++ toString m.input_tokens ++
    "," ++ toString m.output_tokens ++ "," ++ toString m.saved_tokens ++ "," ++
    fmtPct m.savings_pct ++ "," ++ toString m.total_time_ms ++ "," ++
    toString m.avg_time_ms

/-- Embeds `export_csv` (gain.rs:338-408): one labelled section per selected
granularity, each query's error propagated unchanged. -/
def export_csv (tracker : Tracker) (daily weekly monthly all : Bool) :
    Except String (List Ev) :=
  match (if all || daily then
      (tracker.get_all_days).map (fun days =>
        [Ev.query StoreQuery.getAllDays, Ev.out "# Daily Data",
          Ev.out "date,commands,input_tokens,output_tokens,saved_tokens,savings_pct,total_time_ms,avg_time_ms"] ++
        days.map (fun d => Ev.out (csvDayLine d)) ++ [Ev.out ""])
    else .ok []) with
  | .error e => .error e
  | .ok devs =>
    match (if all || weekly then
        (tracker.get_by_week).map (fun weeks =>
          [Ev.query StoreQuery.getByWeek, Ev.out "# Weekly Data",
            Ev.out "week_start,week_end,commands,input_tokens,output_tokens,saved_tokens,savings_pct,total_time_ms,avg_time_ms"] ++
          weeks.map (fun w => Ev.out (csvWeekLine w)) ++ [Ev.out ""])
      else .ok []) with
    | .error e => .error e
    | .ok wevs =>
      match (if all || monthly then
          (tracker.get_by_month).map (fun months =>
            [Ev.query StoreQuery.getByMonth, Ev.out "# Monthly Data",
              Ev.out "month,commands,input_tokens,output_tokens,saved_tokens,savings_pct,total_time_ms,avg_time_ms"] ++
            months.map (fun m => Ev.out (csvMonthLine m)))
        else .ok []) with
      | .error e => .error e
      | .ok mevs => .ok (devs ++ wevs ++ mevs)

/-- The default (summary) view of gain.rs:39-143: header, per-command table,
optional graph, optional history (fallible), optional quota. -/
def defaultView (graph history quota : Bool) (tier : String) (summary : Summary)
    (tracker : Tracker) : Except String (List Ev) :=
  match (if history then historySection tracker else .ok []) with
  | .error e => .error e
  | .ok hist =>
    .ok (headerLines summary ++ commandTableLines summary ++
      graphSection graph summary ++ hist ++
      (if quota then quotaSection tier summary else []))

/-- Embeds `run` (gain.rs:7-160), given an already-constructed tracker
(`Tracker::new` and its context happen in the caller's scope and are not
part of the claims). On success the event trace lists, in program order,
every store query performed and every line printed; on error the propagated
message is returned (anyhow's `context(c)` is modelled as prefixing
`c ++ ": "`). -/
def run (graph history quota : Bool) (tier : String)
    (daily weekly monthly all : Bool) (format : String) (tracker : Tracker) :
    Except String (List Ev) :=
  if format = "json" then
    (export_json tracker daily weekly monthly all).map (fun p => p.1)
  else if format = "csv" then export_csv tracker daily weekly monthly all
  else
    match tracker.get_summary with
    | .error e =>
      .error ("Failed to load token savings summary from database: " ++ e)
    | .ok summary =>
      if summary.total_commands = 0 then
        .ok [Ev.query StoreQuery.getSummary, Ev.out "No tracking data yet.",
          Ev.out "Run some rtk commands to start tracking savings."]
      else if !daily && !weekly && !monthly && !all then
        (defaultView graph history quota tier summary tracker).map
          (fun evs => Ev.query StoreQuery.getSummary :: evs)
      else
        match (if all || daily then print_daily_full tracker else .ok []) with
        | .error e => .error e
        | .ok devs =>
          match (if all || weekly then print_weekly tracker else .ok []) with
          | .error e => .error e
          | .ok wevs =>
            match (if all || monthly then print_monthly tracker else .ok []) with
            | .error e => .error e
            | .ok mevs =>
              .ok (Ev.query StoreQuery.getSummary :: (devs ++ wevs ++ mevs))

theorem foldl_max_le_init (l : List Nat) (a : Nat) : a ≤ l.foldl max a := by
  induction l generalizing a with
  | nil => simp
  | cons y ys ih =>
    simp only [List.foldl_cons]
    exact le_trans (le_max_left a y) (ih (max a y))

theorem mem_le_foldl_max (l : List Nat) (a : Nat) :
    ∀ x ∈ l, x ≤ l.foldl max a := by
  induction l generalizing a with
  | nil => simp
  | cons y ys ih =>
    intro x hx
    simp only [List.foldl_cons]
    rcases List.mem_cons.mp hx with rfl | h
    · exact le_trans (le_max_right a x) (foldl_max_le_init ys (max a x))
    · exact ih (max a y) x h

theorem le_maxVal (data : List (String × Nat)) (p : String × Nat)
    (hp : p ∈ data) : p.2 ≤ maxVal data := by
  cases data with
  | nil => cases hp
  | cons q qs =>
    have hm : maxVal (q :: qs) = (qs.map (fun p => p.2)).foldl max q.2 := rfl
    rw [hm]
    rcases List.mem_cons.mp hp with h | h
    · exact h ▸ foldl_max_le_init _ _
    · exact mem_le_foldl_max _ _ _ (List.mem_map_of_mem _ h)

theorem bar_len_le_width (v m w : Nat) (h : v ≤ m) : bar_len v m w ≤ w := by
  unfold bar_len
  by_cases hm : m > 0
  · rw [if_pos hm]
    have h1 : (v : Rat) / (m : Rat) ≤ 1 :=
      div_le_one_of_le₀ (by exact_mod_cast h) (by positivity)
    have h2 : (v : Rat) / (m : Rat) * (w : Rat) ≤ (w : Rat) := by
      calc (v : Rat) / (m : Rat) * (w : Rat) ≤ 1 * (w : Rat) :=
            mul_le_mul_of_nonneg_right h1 (by positivity)
        _ = (w : Rat) := one_mul _
    have h3 : ((v : Rat) / (m : Rat) * (w : Rat)).floor ≤ ((w : Rat)).floor := by
      show ⌊(v : Rat) / (m : Rat) * (w : Rat)⌋ ≤ ⌊((w : Nat) : Rat)⌋
      exact Int.floor_le_floor h2
    have h4 : ((w : Rat)).floor = (w : Int) := by
      show ⌊((w : Nat) : ℚ)⌋ = (w : Int)
      exact Int.floor_natCast w
    exact Int.toNat_le.mpr (h4 ▸ h3)
  · rw [if_neg hm]
    exact Nat.zero_le w

theorem bar_len_zero_value (m w : Nat) : bar_len 0 m w = 0 := by
  unfold bar_len
  by_cases hm : m > 0
  · rw [if_pos hm]
    have h0 : ((0 : Nat) : Rat) / (m : Rat) * (w : Rat) = 0 := by
      norm_num
    rw [h0]
    decide
  · rw [if_neg hm]

/-- C6: with a successfully loaded summary whose `total_commands` is zero,
the text report succeeds, prints exactly the two no-data notice lines, and
performs no store query other than `get_summary` — the trace shows neither
`get_recent` nor any period query, and no table, graph, history or quota
line. -/
theorem C6_zero_commands_only_notice
    (tracker : Tracker) (graph history quota : Bool) (tier : String)
    (daily weekly monthly all : Bool) (format : String) (s : Summary)
    (hf1 : format ≠ "json") (hf2 : format ≠ "csv")
    (hs : tracker.get_summary = Except.ok s) (h0 : s.total_commands = 0) :
    run graph history quota tier daily weekly monthly all format tracker =
      Except.ok [Ev.query StoreQuery.getSummary, Ev.out "No tracking data yet.",
        Ev.out "Run some rtk commands to start tracking savings."] := by
  unfold run
  rw [if_neg hf1, if_neg hf2, hs]
  simp [h0]

/-- C6 witness: the zero-data short circuit at a concrete store. -/
theorem C6_zero_commands_only_notice_witness :
    run false false false "pro" false false false false "text"
      ⟨Except.ok ⟨0, 0, 0, 0, 0, 0, 0, [], []⟩, fun _ => Except.ok [],
        Except.ok [], Except.ok [], Except.ok []⟩ =
      Except.ok [Ev.query StoreQuery.getSummary, Ev.out "No tracking data yet.",
        Ev.out "Run some rtk commands to start tracking savings."] :=
  C6_zero_commands_only_notice
    ⟨Except.ok ⟨0, 0, 0, 0, 0, 0, 0, [], []⟩, fun _ => Except.ok [],
      Except.ok [], Except.ok [], Except.ok []⟩
    false false false "pro" false false false false "text"
    ⟨0, 0, 0, 0, 0, 0, 0, [], []⟩ (by decide) (by decide) rfl rfl

/-- C9: the ASCII graph renderer is total: the empty series renders nothing;
every series renders one line per row; a zero value always yields a
zero-length bar (covering the all-zero series, with the division guarded by
`max_val > 0`); and every bar length is bounded by the fixed width 40, so
the right-padding subtraction `width - bar_len` never underflows. -/
theorem C9_ascii_graph_total :
    print_ascii_graph [] = [] ∧
    (∀ data : List (String × Nat),
      (print_ascii_graph data).length = data.length) ∧
    (∀ data : List (String × Nat), ∀ p ∈ data, p.2 = 0 →
      bar_len p.2 (maxVal data) 40 = 0) ∧
    (∀ data : List (String × Nat), ∀ p ∈ data,
      bar_len p.2 (maxVal data) 40 ≤ 40) := by
  refine ⟨rfl, ?_, ?_, ?_⟩
  · intro data
    cases data with
    | nil => rfl
    | cons q qs => simp [print_ascii_graph]
  · intro data p _ hz
    rw [hz]
    exact bar_len_zero_value _ _
  · intro data p hp
    exact bar_len_le_width _ _ _ (le_maxVal data p hp)

/-- C9 witness: the bar bound and the zero-value bar at a concrete
series. -/
theorem C9_ascii_graph_total_witness :
    bar_len 5 (maxVal [("2024-01-02", 5), ("2024-01-03", 0)]) 40 ≤ 40 ∧
    bar_len 0 (maxVal [("2024-01-02", 5), ("2024-01-03", 0)]) 40 = 0 := by
  constructor
  · exact C9_ascii_graph_total.2.2.2 [("2024-01-02", 5), ("2024-01-03", 0)]
      ("2024-01-02", 5) (by decide)
  · exact C9_ascii_graph_total.2.2.1 [("2024-01-02", 5), ("2024-01-03", 0)]
      ("2024-01-03", 0) (by decide) rfl

/-- C7: under a store whose queries succeed, the JSON export succeeds and
each of the `daily`/`weekly`/`monthly` keys is present in the serialized
object if and only if its granularity is selected (its own flag or `all`);
a selected key holds the full array of rollups, an unselected key is absent
from the object entirely (`getField` yields `none`, never `Json.null`);
`summary` is always present. -/
theorem C7_export_json_optional_keys
    (tracker : Tracker) (daily weekly monthly all : Bool)
    (sm : Summary) (ds : List DayStats) (ws : List WeekStats)
    (ms : List MonthStats)
    (hs : tracker.get_summary = Except.ok sm)
    (hd : tracker.get_all_days = Except.ok ds)
    (hw : tracker.get_by_week = Except.ok ws)
    (hm : tracker.get_by_month = Except.ok ms) :
    ∃ evs : List Ev, ∃ e : ExportData,
      export_json tracker daily weekly monthly all = Except.ok (evs, e) ∧
      (e.daily = if all || daily then some ds else none) ∧
      (e.weekly = if all || weekly then some ws else none) ∧
      (e.monthly = if all || monthly then some ms else none) ∧
      ("summary" ∈ e.toJson.topKeys) ∧
      (("daily" ∈ e.toJson.topKeys) ↔ (all || daily) = true) ∧
      (("weekly" ∈ e.toJson.topKeys) ↔ (all || weekly) = true) ∧
      (("monthly" ∈ e.toJson.topKeys) ↔ (all || monthly) = true) ∧
      (e.toJson.getField "daily" =
        if all || daily then some (Json.arr (ds.map DayStats.toJson)) else none) ∧
      (e.toJson.getField "weekly" =
        if all || weekly then some (Json.arr (ws.map WeekStats.toJson)) else none) ∧
      (e.toJson.getField "monthly" =
        if all || monthly then some (Json.arr (ms.map MonthStats.toJson)) else none) := by
  simp only [export_json, hs, hd, hw, hm, Except.map]
  cases all || daily <;> cases all || weekly <;> cases all || monthly <;>
    · refine ⟨_, _, rfl, ?_⟩
      simp [ExportData.toJson, Json.topKeys, Json.getField, jsonFieldLookup]

/-- C7 witness: selecting only `daily` yields a document with the `daily`
key and without `weekly` or `monthly`. -/
theorem C7_export_json_optional_keys_witness :
    ∃ evs : List Ev, ∃ e : ExportData,
      export_json
          ⟨Except.ok ⟨1, 0, 0, 0, 0, 0, 0, [], []⟩, fun _ => Except.ok [],
            Except.ok [], Except.ok [], Except.ok []⟩ true false false false =
        Except.ok (evs, e) ∧
      "daily" ∈ e.toJson.topKeys ∧ "weekly" ∉ e.toJson.topKeys ∧
      "monthly" ∉ e.toJson.topKeys ∧ "summary" ∈ e.toJson.topKeys := by
  obtain ⟨evs, e, h1, _, _, _, h5, h6, h7, h8, _⟩ :=
    C7_export_json_optional_keys
      ⟨Except.ok ⟨1, 0, 0, 0, 0, 0, 0, [], []⟩, fun _ => Except.ok [],
        Except.ok [], Except.ok [], Except.ok []⟩ true false false false
      ⟨1, 0, 0, 0, 0, 0, 0, [], []⟩ [] [] [] rfl rfl rfl rfl
  refine ⟨evs, e, h1, h6.mpr rfl, ?_, ?_, h5⟩
  · intro hk
    simpa using h7.mp hk
  · intro hk
    simpa using h8.mp hk

/-- C8 counterexample: a store whose `get_recent` fails with the message
"store offline" makes the text report fail with exactly that message —
byte-for-byte the store's own error, with no added context identifying the
failed query (gain.rs:93 uses a bare `?`). This refutes the claim that
every store failure is propagated with identifying context. -/
theorem C8_counterexample_get_recent_without_context :
    (Tracker.mk (Except.ok ⟨1, 0, 0, 0, 0, 0, 0, [], []⟩)
        (fun _ => Except.error "store offline") (Except.ok []) (Except.ok [])
        (Except.ok [])).get_recent 10 = Except.error "store offline" ∧
    run false true false "pro" false false false false "text"
      (Tracker.mk (Except.ok ⟨1, 0, 0, 0, 0, 0, 0, [], []⟩)
        (fun _ => Except.error "store offline") (Except.ok []) (Except.ok [])
        (Except.ok [])) = Except.error "store offline" := by
  exact ⟨rfl, rfl⟩

/-- C8 as amended: no store error is silently discarded — every failure of a
performed query aborts the run with an error — but only `get_summary`
carries an added context message ("Failed to load token savings summary
from database"); failures of `get_recent`, `get_all_days`, `get_by_week`
and `get_by_month` are propagated verbatim, without added context. -/
theorem C8_store_errors_propagated
    (tracker : Tracker) (graph history quota : Bool) (tier : String)
    (daily weekly monthly all : Bool) (m : String) (s : Summary) :
    (tracker.get_summary = Except.error m →
      run graph history quota tier daily weekly monthly all "text" tracker =
        Except.error
          ("Failed to load token savings summary from database: " ++ m)) ∧
    (tracker.get_summary = Except.error m →
      run graph history quota tier daily weekly monthly all "json" tracker =
        Except.error
          ("Failed to load token savings summary from database: " ++ m)) ∧
    (tracker.get_summary = Except.ok s → s.total_commands ≠ 0 →
      history = true → daily = false → weekly = false → monthly = false →
      all = false → tracker.get_recent 10 = Except.error m →
      run graph history quota tier daily weekly monthly all "text" tracker =
        Except.error m) ∧
    ((all || daily) = true → tracker.get_summary = Except.ok s →
      s.total_commands ≠ 0 → tracker.get_all_days = Except.error m →
      run graph history quota tier daily weekly monthly all "text" tracker =
        Except.error m) ∧
    ((all || daily) = false → (all || weekly) = true →
      tracker.get_summary = Except.ok s → s.total_commands ≠ 0 →
      tracker.get_by_week = Except.error m →
      run graph history quota tier daily weekly monthly all "text" tracker =
        Except.error m) ∧
    ((all || daily) = false → (all || weekly) = false →
      (all || monthly) = true → tracker.get_summary = Except.ok s →
      s.total_commands ≠ 0 → tracker.get_by_month = Except.error m →
      run graph history quota tier daily weekly monthly all "text" tracker =
        Except.error m) := by
  refine ⟨?_, ?_, ?_, ?_, ?_, ?_⟩
  · intro hs
    simp [run, hs]
  · intro hs
    simp [run, export_json, hs, Except.map]
  · intro hs h0 hh hd hw hm ha hr
    subst hh hd hw hm ha
    simp [run, hs, h0, defaultView, historySection, hr, Except.map]
  · intro hsel hs h0 hd
    have hnd : (!daily && !weekly && !monthly && !all) = false := by
      cases all <;> cases daily <;> simp_all
    simp [run, hs, h0, hnd, hsel, print_daily_full, hd]
  · intro hnd hsel hs h0 hw
    have hdef : (!daily && !weekly && !monthly && !all) = false := by
      cases all <;> cases weekly <;> simp_all
    simp [run, hs, h0, hdef, hnd, hsel, print_weekly, hw]
  · intro hnd hnw hsel hs h0 hm
    have hdef : (!daily && !weekly && !monthly && !all) = false := by
      cases all <;> cases monthly <;> simp_all
    simp [run, hs, h0, hdef, hnd, hnw, hsel, print_monthly, hm]

/-- C8 amended witness: a failing `get_recent` aborts the concrete run with
its verbatim message. -/
theorem C8_store_errors_propagated_witness :
    run false true false "pro" false false false false "text"
      (Tracker.mk (Except.ok ⟨2, 0, 0, 0, 0, 0, 0, [], []⟩)
        (fun _ => Except.error "boom") (Except.ok []) (Except.ok [])
        (Except.ok [])) = Except.error "boom" :=
  (C8_store_errors_propagated
    (Tracker.mk (Except.ok ⟨2, 0, 0, 0, 0, 0, 0, [], []⟩)
      (fun _ => Except.error "boom") (Except.ok []) (Except.ok [])
      (Except.ok []))
    false true false "pro" false false false false "boom"
    ⟨2, 0, 0, 0, 0, 0, 0, [], []⟩).2.2.1 rfl (by decide) rfl rfl rfl rfl rfl rfl
